import Mathlib

/-!
Verification of the SquareDose four-head doser firmware core.

This file is a shallow embedding of the firmware's scheduling, dosing and
hourly-log components, translated function by function from the C++ sources:

* `Schedule.cpp` (interval-only variant), `ScheduleStore.cpp` / `ScheduleManager`
* `DosingHead.cpp` (dispense / calibrate / calculateRuntime / estimateVolume)
* `DosingLog.cpp` (`HourlyDoseLog::isValid`), `DosingLogStore` (saveLog /
  pruneOldLogs), `DosingLogManager` (logDoseInternal and friends)
* `SchedulerTask.cpp` (getCurrentTime / run) and the WebServer handlers for
  POST /api/schedules and POST /api/dose.

Modelling conventions:
* C++ `float` values are embedded as `ℚ`.  Rounding of individual float
  operations is not modelled; every concrete input used in a witness or
  counterexample below is a small dyadic rational at which the corresponding
  float computation is exact.
* `uint32_t` values are `Nat` with wrapping subtraction made explicit via
  `sub32`; a `static_cast<uint32_t>` of a nonnegative float truncates, which
  is `Int.floor` followed by `Int.toNat`.
* The NVS key/value store is an association list.  Log keys: the C++ key is
  the string `"h" ++ toString hourOffset ++ "_" ++ toString head`, which is
  in bijection with the pair `(hourOffset, head)`; we use that pair directly.
* Blocking/hardware effects (motor commands, measured elapsed time, NVS open
  failures, dispense outcomes) are passed in explicitly as environment data.
-/

namespace SquareDose

/-- 2^32, the modulus of `uint32_t` arithmetic. -/
def UINT32_MOD : Nat := 4294967296

/-- Wrapping `uint32_t` subtraction `a - b`. -/
def sub32 (a b : Nat) : Nat :=
  (a % UINT32_MOD + (UINT32_MOD - b % UINT32_MOD)) % UINT32_MOD

/-! ## Schedule (interval-only variant, `Schedule.h` / `Schedule.cpp`) -/

/-- The `Schedule` struct: one slot per head, user intent plus derived fields. -/
structure Schedule where
  head : Nat
  enabled : Bool
  dailyTargetVolume : ℚ
  dosesPerDay : Nat
  volume : ℚ
  intervalSeconds : Nat
  lastExecutionTime : Nat
  executionCount : Nat
  name : String
  createdAt : Nat
  updatedAt : Nat
deriving DecidableEq

/-- `Schedule::isValid`. -/
def Schedule.isValid (s : Schedule) : Bool :=
  if 4 ≤ s.head then false
  else if s.volume ≤ 0 ∨ 1000 < s.volume then false
  else if s.intervalSeconds < 60 ∨ 86400 < s.intervalSeconds then false
  else if s.dailyTargetVolume ≤ 0 ∨ s.dosesPerDay = 0 then false
  else true

/-- `Schedule::shouldExecute(currentTime)`: the due predicate.  The elapsed
time is computed with wrapping `uint32_t` subtraction, exactly as in the
source (`uint32_t elapsed = currentTime - lastExecutionTime`). -/
def Schedule.shouldExecute (s : Schedule) (currentTime : Nat) : Bool :=
  if ¬s.enabled ∨ ¬s.isValid then false
  else if s.lastExecutionTime = 0 then true
  else s.intervalSeconds ≤ sub32 currentTime s.lastExecutionTime

/-- `Schedule::calculateFromDailyTarget`: recompute the derived fields from
the user intent; `none` models the `false` return on invalid inputs. -/
def Schedule.calculateFromDailyTarget (s : Schedule) : Option Schedule :=
  if s.dosesPerDay = 0 ∨ s.dailyTargetVolume ≤ 0 then none
  else some { s with volume := s.dailyTargetVolume / (s.dosesPerDay : ℚ),
                     intervalSeconds := 86400 / s.dosesPerDay }

/-- `validateSchedule` (the store-level semantic bounds check); only the
boolean verdict is modelled, the error strings are dropped. -/
def validateSchedule (s : Schedule) : Bool :=
  if 4 ≤ s.head then false
  else if s.dailyTargetVolume ≤ 0 ∨ 10000 < s.dailyTargetVolume then false
  else if s.dosesPerDay = 0 ∨ 1440 < s.dosesPerDay then false
  else if s.volume ≤ 0 ∨ 1000 < s.volume then false
  else if s.intervalSeconds < 60 then false
  else if 86400 < s.intervalSeconds then false
  else true

/-! ## Dosing head (`DosingHead.cpp`) -/

/-- The per-head `CalibrationData` record. -/
structure CalibrationData where
  mlPerSecond : ℚ
  isCalibrated : Bool
  lastCalibrationTime : Nat
deriving DecidableEq

/-- Constructor defaults: 1 mL/s, not calibrated. -/
def defaultCalibration : CalibrationData :=
  { mlPerSecond := 1, isCalibrated := false, lastCalibrationTime := 0 }

def MIN_VOLUME_ML : ℚ := 1 / 10
def MAX_VOLUME_ML : ℚ := 1000
def MIN_RUNTIME_MS : Nat := 100
def MAX_RUNTIME_MS : Nat := 300000
def CALIBRATION_VOLUME_ML : ℚ := 4

/-- `DosingHead::isValidVolume`. -/
def isValidVolume (volumeMl : ℚ) : Bool :=
  MIN_VOLUME_ML ≤ volumeMl ∧ volumeMl ≤ MAX_VOLUME_ML

/-- `DosingHead::isValidRuntime`. -/
def isValidRuntime (runtimeMs : Nat) : Bool :=
  MIN_RUNTIME_MS ≤ runtimeMs ∧ runtimeMs ≤ MAX_RUNTIME_MS

/-- `DosingHead::calculateRuntime`: `static_cast<uint32_t>(seconds * 1000.0f)`
truncates the (nonnegative at every call site) value toward zero. -/
def calculateRuntime (cal : CalibrationData) (volumeMl : ℚ) : Nat :=
  if cal.mlPerSecond ≤ 0 then 0
  else (⌊volumeMl / cal.mlPerSecond * 1000⌋).toNat

/-- `DosingHead::estimateVolume`: `mlPerSecond * (runtimeMs / 1000.0f)`. -/
def estimateVolume (cal : CalibrationData) (runtimeMs : Nat) : ℚ :=
  cal.mlPerSecond * ((runtimeMs : ℚ) / 1000)

/-- The `DosingResult` struct. -/
structure DosingResult where
  success : Bool
  actualRuntime : Nat
  targetVolume : ℚ
  estimatedVolume : ℚ
  errorMessage : String
deriving DecidableEq

/-- Commands issued to the motor actuator during a dispense. -/
inductive MotorCmd where
  | start (head : Nat)
  | stop (head : Nat)
deriving DecidableEq

/-- `DosingHead::dispense(volumeMl)`.  `motorStartOk` is the return value of
`motor->startMotor`, `measuredRuntime` the elapsed `millis()` measured around
the blocking delay.  The result is paired with the actuator commands issued.
Error message strings are abbreviated to their fixed prefixes. -/
def dispense (initialized : Bool) (cal : CalibrationData) (headIndex : Nat)
    (motorStartOk : Bool) (measuredRuntime : Nat) (volumeMl : ℚ) :
    DosingResult × List MotorCmd :=
  if ¬initialized then
    ({ success := false, actualRuntime := 0, targetVolume := volumeMl,
       estimatedVolume := 0, errorMessage := "Dosing head not initialized" }, [])
  else if ¬isValidVolume volumeMl then
    ({ success := false, actualRuntime := 0, targetVolume := volumeMl,
       estimatedVolume := 0, errorMessage := "Invalid volume" }, [])
  else
    let runtimeMs := calculateRuntime cal volumeMl
    if runtimeMs = 0 ∨ ¬isValidRuntime runtimeMs then
      ({ success := false, actualRuntime := 0, targetVolume := volumeMl,
         estimatedVolume := 0, errorMessage := "Invalid runtime calculated" }, [])
    else if ¬motorStartOk then
      ({ success := false, actualRuntime := 0, targetVolume := volumeMl,
         estimatedVolume := 0, errorMessage := "Failed to start motor" }, [])
    else
      ({ success := true, actualRuntime := measuredRuntime,
         targetVolume := volumeMl,
         estimatedVolume := estimateVolume cal measuredRuntime,
         errorMessage := "" },
       [MotorCmd.start headIndex, MotorCmd.stop headIndex])

/-- `DosingHead::calibrate(actualVolumeMl)`.  `persistOpenOk` models whether
`Preferences::begin` succeeds inside `saveCalibration` (the only failure path
there; the `put*` results are ignored by the source).  Note the member
calibration record is assigned *before* `saveCalibration()` is called, so the
updated record is returned even when persistence fails. -/
def calibrate (initialized : Bool) (cal : CalibrationData) (nowMillis : Nat)
    (persistOpenOk : Bool) (actualVolumeMl : ℚ) : CalibrationData × Bool :=
  if ¬initialized then (cal, false)
  else if actualVolumeMl ≤ 0 then (cal, false)
  else
    let durationMs := calculateRuntime cal CALIBRATION_VOLUME_ML
    if durationMs = 0 then (cal, false)
    else
      let seconds : ℚ := (durationMs : ℚ) / 1000
      let newMlPerSecond := actualVolumeMl / seconds
      if newMlPerSecond ≤ 0 ∨ 100 < newMlPerSecond then (cal, false)
      else
        ({ mlPerSecond := newMlPerSecond, isCalibrated := true,
           lastCalibrationTime := nowMillis }, persistOpenOk)

/-! ## Hourly dosing log (`DosingLog.cpp`, `DosingLogStore`, `DosingLogManager`) -/

/-- The `HourlyDoseLog` entry: per (hour, head) scheduled/ad-hoc tallies. -/
structure HourlyDoseLog where
  hourTimestamp : Nat
  head : Nat
  scheduledVolume : ℚ
  adhocVolume : ℚ
deriving DecidableEq

/-- `HourlyDoseLog::isValid`. -/
def HourlyDoseLog.isValid (log : HourlyDoseLog) : Bool :=
  if 4 ≤ log.head then false
  else if log.scheduledVolume < 0 ∨ log.adhocVolume < 0 then false
  else if log.hourTimestamp < 946684800 then false
  else if log.hourTimestamp % 3600 ≠ 0 then false
  else true

/-- Jan 1, 2025 00:00:00 UTC, the base of the compact key scheme. -/
def BASE_TIME : Nat := 1735689600

def LOG_RETENTION_HOURS : Nat := 336

/-- A log key.  The C++ key is the string
`"h" + String((hourTimestamp - BASE_TIME) / 3600) + "_" + String(head)`;
that string is in bijection with the pair (hour offset, head), which we use
directly.  The subtraction is wrapping `uint32_t` arithmetic. -/
abbrev LogKey := Nat × Nat

/-- `DosingLogStore::getLogKey`. -/
def getLogKey (hourTimestamp head : Nat) : LogKey :=
  (sub32 hourTimestamp BASE_TIME / 3600, head)

/-- Association list lookup over the log namespace. -/
def findEntry : List (LogKey × HourlyDoseLog) → LogKey → Option HourlyDoseLog
  | [], _ => none
  | (k, e) :: rest, key => if k = key then some e else findEntry rest key

/-- Remove every binding for a key (NVS keys are unique; this models
`preferences.remove`). -/
def eraseEntry : List (LogKey × HourlyDoseLog) → LogKey → List (LogKey × HourlyDoseLog)
  | [], _ => []
  | (k, e) :: rest, key =>
      if k = key then eraseEntry rest key else (k, e) :: eraseEntry rest key

/-- The `dosinglogs` NVS namespace: blob entries plus the `log_count` short. -/
structure LogStore where
  entries : List (LogKey × HourlyDoseLog)
  logCount : Nat
deriving DecidableEq

def emptyLogStore : LogStore := { entries := [], logCount := 0 }

def LogStore.lookup (st : LogStore) (k : LogKey) : Option HourlyDoseLog :=
  findEntry st.entries k

/-- `preferences.putBytes` at a key: overwrite the binding. -/
def LogStore.setEntry (st : LogStore) (k : LogKey) (e : HourlyDoseLog) : LogStore :=
  { st with entries := (k, e) :: eraseEntry st.entries k }

/-- `DosingLogStore::saveLog`: validate, merge with an existing entry for the
same (hour, head) by adding both counters, write back, and bump the stored
count for a new entry. -/
def saveLog (st : LogStore) (log : HourlyDoseLog) : LogStore × Bool :=
  if ¬log.isValid then (st, false)
  else
    let key := getLogKey log.hourTimestamp log.head
    match st.lookup key with
    | some existingLog =>
        let updatedLog := { log with
          scheduledVolume := log.scheduledVolume + existingLog.scheduledVolume,
          adhocVolume := log.adhocVolume + existingLog.adhocVolume }
        (st.setEntry key updatedLog, true)
    | none =>
        ({ (st.setEntry key log) with logCount := st.logCount + 1 }, true)

/-- `DosingLogManager::roundToHour` (identical to the store's version). -/
def roundToHour (timestamp : Nat) : Nat := timestamp - timestamp % 3600

/-- `DosingLogManager::logDoseInternal`: head check, unsynced-time no-op
(before Jan 1, 2020), then save the rounded-hour entry. -/
def logDoseInternal (st : LogStore) (head : Nat) (scheduledVolume adhocVolume : ℚ)
    (timestamp : Nat) : LogStore × Bool :=
  if 4 ≤ head then (st, false)
  else if timestamp < 1577836800 then (st, false)
  else saveLog st { hourTimestamp := roundToHour timestamp, head := head,
                    scheduledVolume := scheduledVolume, adhocVolume := adhocVolume }

/-- `DosingLogManager::logScheduledDose`. -/
def logScheduledDose (st : LogStore) (head : Nat) (volume : ℚ) (timestamp : Nat) :
    LogStore × Bool :=
  logDoseInternal st head volume 0 timestamp

/-- `DosingLogManager::logAdhocDose`. -/
def logAdhocDose (st : LogStore) (head : Nat) (volume : ℚ) (timestamp : Nat) :
    LogStore × Bool :=
  logDoseInternal st head 0 volume timestamp

/-- One hour's worth of removals inside `pruneOldLogs` (the inner head loop);
the second component counts successful removals. -/
def pruneStepHour (acc : LogStore × Nat) (hour : Nat) : LogStore × Nat :=
  (List.range 4).foldl
    (fun a hd =>
      let key := getLogKey hour hd
      let present := (a.1.lookup key).isSome
      ({ a.1 with entries := eraseEntry a.1.entries key },
       a.2 + if present then 1 else 0))
    acc

/-- The hour loop of `pruneOldLogs`: `n` iterations starting at `startHour`,
stepping by 3600 seconds. -/
def pruneRange (st : LogStore) (startHour n : Nat) : LogStore × Nat :=
  (List.range n).foldl (fun acc i => pruneStepHour acc (startHour + 3600 * i)) (st, 0)

/-- `DosingLogStore::pruneOldLogs(currentTime)`: compute the retention cutoff,
then walk the 30-day window of hours strictly below the cutoff hour, removing
each (hour, head) key.  The iteration count reproduces the C++ loop
`for (hour = cutoffHour - 30*24*3600; hour < cutoffHour; hour += 3600)`:
truncated `Nat` subtraction yields zero iterations exactly when the wrapped
start does not lie below the cutoff. -/
def pruneOldLogs (st : LogStore) (currentTime : Nat) : LogStore × Nat :=
  let cutoffTime := sub32 currentTime (LOG_RETENTION_HOURS * 3600)
  let cutoffHour := cutoffTime / 3600 * 3600
  let startHour := sub32 cutoffHour (30 * 24 * 3600)
  let iters := (cutoffHour - startHour + 3599) / 3600
  let res := pruneRange st startHour iters
  if 0 < res.2 then
    ({ res.1 with logCount := res.1.logCount - res.2 }, res.2)
  else (res.1, res.2)

/-- `DosingLogStore::clearAll`. -/
def clearAllLogs (_st : LogStore) : LogStore := emptyLogStore

/-- Every entry reachable by lookup is a valid `HourlyDoseLog`. -/
def StoreEntriesValid (st : LogStore) : Prop :=
  ∀ k e, st.lookup k = some e → e.isValid = true

/-! ## Schedule manager, scheduler task and web handlers -/

/-- Environment of the four dosing heads seen by a dispense: whether `begin`
ran, the calibration record, whether `startMotor` succeeds, and the elapsed
`millis()` measured around the blocking delay. -/
structure DoseEnv where
  initialized : Nat → Bool
  cal : Nat → CalibrationData
  motorStartOk : Nat → Bool
  measuredRuntime : Nat → Nat

/-- `dosingHeads[h]->dispense(v)`. -/
def headDispense (env : DoseEnv) (h : Nat) (volumeMl : ℚ) : DosingResult × List MotorCmd :=
  dispense (env.initialized h) (env.cal h) h (env.motorStartOk h)
    (env.measuredRuntime h) volumeMl

/-- `ScheduleManager` cache (`scheduleCache` + `cacheValid`, slots 0..3)
together with the dosing-log store the manager writes through
`logManager` (configured, as in `main.cpp`). -/
structure SystemState where
  cache : Nat → Option Schedule
  log : LogStore

/-- `ScheduleManager::updateLastExecution(head, executionTime)`: on a valid
cache slot, stamp the execution time, bump the counter and touch `updatedAt`
(the cache is updated regardless of the NVS write-back result). -/
def updateLastExecution (st : SystemState) (head executionTime : Nat) : SystemState :=
  if 4 ≤ head then st
  else
    match st.cache head with
    | some s =>
        { st with cache := fun h =>
            if h = head then
              some { s with lastExecutionTime := executionTime,
                            executionCount := s.executionCount + 1,
                            updatedAt := executionTime }
            else st.cache h }
    | none => st

/-- `ScheduleManager::executeSchedule(sched, heads, currentTime)`: dispense;
on success log the *estimated* volume as a scheduled dose at `currentTime`
and stamp the execution; on failure change nothing. -/
def executeSchedule (env : DoseEnv) (st : SystemState) (sched : Schedule)
    (currentTime : Nat) : SystemState :=
  if 4 ≤ sched.head then st
  else
    let result := (headDispense env sched.head sched.volume).1
    if result.success then
      let st1 : SystemState :=
        { st with log := (logScheduledDose st.log sched.head result.estimatedVolume currentTime).1 }
      updateLastExecution st1 sched.head currentTime
    else st

/-- One iteration of the head loop in `ScheduleManager::checkAndExecute`. -/
def checkHead (env : DoseEnv) (currentTime : Nat) (acc : SystemState) (head : Nat) :
    SystemState :=
  match acc.cache head with
  | some s =>
      if s.enabled then
        if s.shouldExecute currentTime then executeSchedule env acc s currentTime
        else acc
      else acc
  | none => acc

/-- `ScheduleManager::checkAndExecute(currentTime, heads)`: walk slots 0..3. -/
def checkAndExecute (env : DoseEnv) (currentTime : Nat) (st : SystemState) : SystemState :=
  [0, 1, 2, 3].foldl (checkHead env currentTime) st

/-- `SchedulerTask::getCurrentTime`: zero (meaning "unsynced") before
Jan 1, 2000, otherwise the wall-clock seconds truncated to `uint32_t`. -/
def getCurrentTime (raw : Nat) : Nat :=
  if raw < 946684800 then 0 else raw % UINT32_MOD

/-- One iteration of `SchedulerTask::run`: check-and-execute only when
`getCurrentTime` is positive.  The second component records the time passed
into `checkAndExecute` (`none` when the tick idles). -/
def schedulerTick (env : DoseEnv) (raw : Nat) (st : SystemState) :
    SystemState × Option Nat :=
  let currentTime := getCurrentTime raw
  if 0 < currentTime then (checkAndExecute env currentTime st, some currentTime)
  else (st, none)

/-- `ScheduleManager::setSchedule`: head bound, store-level validation, then
cache update on success (the NVS write is assumed to succeed once the
schedule validates). -/
def setSchedule (st : SystemState) (sched : Schedule) : SystemState × Bool :=
  if 4 ≤ sched.head then (st, false)
  else if ¬validateSchedule sched then (st, false)
  else
    ({ st with cache := fun h => if h = sched.head then some sched else st.cache h },
     true)

/-- `WebServer::validateScheduleRequest` (interval-only variant): build the
schedule from the request fields, derive `volume` and `intervalSeconds`, zero
the execution tracking, then check the semantic bounds. -/
def validateScheduleRequest (head : Nat) (dailyTargetVolume : ℚ) (dosesPerDay : Nat)
    (enabled : Bool) (name : String) : Option Schedule :=
  let base : Schedule :=
    { head := head, enabled := enabled, dailyTargetVolume := dailyTargetVolume,
      dosesPerDay := dosesPerDay, volume := 0, intervalSeconds := 0,
      lastExecutionTime := 0, executionCount := 0, name := name,
      createdAt := 0, updatedAt := 0 }
  match base.calculateFromDailyTarget with
  | none => none
  | some s =>
      if 4 ≤ s.head then none
      else if s.dailyTargetVolume ≤ 0 ∨ 10000 < s.dailyTargetVolume then none
      else if s.dosesPerDay = 0 ∨ 1440 < s.dosesPerDay then none
      else if s.volume ≤ 0 ∨ 1000 < s.volume then none
      else if s.intervalSeconds < 60 then none
      else some s

/-- `WebServer::handlePostSchedule`: validate the request, stamp `createdAt`
and `updatedAt` with `millis() / 1000` (seconds since boot), and save.
`nowMillis` is the monotonic `millis()` value at the request. -/
def handlePostSchedule (st : SystemState) (nowMillis : Nat) (head : Nat)
    (dailyTargetVolume : ℚ) (dosesPerDay : Nat) (enabled : Bool) (name : String) :
    SystemState × Bool :=
  match validateScheduleRequest head dailyTargetVolume dosesPerDay enabled name with
  | none => (st, false)
  | some sched =>
      setSchedule st
        { sched with createdAt := nowMillis / 1000, updatedAt := nowMillis / 1000 }

/-- The detached dose task spawned by `WebServer::handlePostDose`: dispense,
then on success (and wall-clock at least year 2000) log the *estimated*
volume as an ad-hoc dose at the current wall time. -/
def doseTask (env : DoseEnv) (log : LogStore) (head : Nat) (volume : ℚ)
    (wallTime : Nat) : LogStore × DosingResult :=
  let result := (headDispense env head volume).1
  if result.success ∧ 946684800 ≤ wallTime then
    ((logAdhocDose log head result.estimatedVolume wallTime).1, result)
  else (log, result)

/-- Modelled from the spec: the spec's claimed runtime computation
`runtime_ms = round(volume_ml / ml_per_second * 1000)` (round to nearest),
for comparison against `calculateRuntime`, which the source implements with
`static_cast<uint32_t>` truncation. -/
def specRuntimeMs (cal : CalibrationData) (volumeMl : ℚ) : Nat :=
  if cal.mlPerSecond ≤ 0 then 0
  else (round (volumeMl / cal.mlPerSecond * 1000) : ℤ).toNat

/-! ## Derived notions and concrete states used by the theorems below -/

/-- The record change `updateLastExecution` applies to a cached schedule. -/
def stampExecution (s : Schedule) (t : Nat) : Schedule :=
  { s with lastExecutionTime := t, executionCount := s.executionCount + 1,
           updatedAt := t }

/-- Effect of one `checkAndExecute` pass on a single cache slot, assuming the
slot index matches the stored schedule's head. -/
def slotTick (env : DoseEnv) (t h : Nat) : Option Schedule → Option Schedule
  | none => none
  | some s =>
      if s.enabled = true ∧ s.shouldExecute t = true ∧
         (headDispense env h s.volume).1.success = true then
        some (stampExecution s t)
      else some s

/-- Cache slots hold schedules whose `head` field matches the slot index
(established by `setSchedule` and `reloadCache`). -/
def CacheConsistent (st : SystemState) : Prop :=
  ∀ h s, st.cache h = some s → s.head = h

/-- A manager state with no schedules and an empty log. -/
def emptySystemState : SystemState := ⟨fun _ => none, emptyLogStore⟩

/-- Heads all initialized with default calibration; motors start fine; the
measured dispense time is 2000 ms. -/
def demoEnv : DoseEnv := ⟨fun _ => true, fun _ => defaultCalibration, fun _ => true, fun _ => 2000⟩

/-- Like `demoEnv` but every `startMotor` call fails. -/
def demoFailEnv : DoseEnv :=
  ⟨fun _ => true, fun _ => defaultCalibration, fun _ => false, fun _ => 0⟩

/-- Like `demoEnv` but the measured dispense time is 5100 ms. -/
def demoSlowEnv : DoseEnv :=
  ⟨fun _ => true, fun _ => defaultCalibration, fun _ => true, fun _ => 5100⟩

/-- A schedule for head 0: 24 mL/day in 12 doses (2 mL every 7200 s), last
executed at 2025-06-01 12:00:00 UTC. -/
def demoSchedule : Schedule := ⟨0, true, 24, 12, 2, 7200, 1748779200, 3, "", 1, 1⟩

/-- A manager state holding exactly `demoSchedule` in slot 0. -/
def demoState : SystemState :=
  ⟨fun h => if h = 0 then some demoSchedule else none, emptyLogStore⟩

/-- A schedule whose `lastExecutionTime` lies in the future of the current
wall clock (reachable after a backwards manual time correction). -/
def wrapSchedule : Schedule := ⟨0, true, 24, 12, 2, 7200, 3000000000, 5, "", 0, 0⟩

/-- A valid log entry whose hour lies 44 days before wall time 1800000000:
past the 14-day retention, but one hour *below* the 30-day removal window
that `pruneOldLogs` walks underneath the cutoff hour. -/
def staleEntry : HourlyDoseLog := ⟨1796194800, 0, 3, 0⟩

/-- A log store holding exactly `staleEntry`. -/
def staleStore : LogStore := ⟨[(getLogKey 1796194800 0, staleEntry)], 1⟩

/-- A calibration of 64 mL/s (any rate whose runtime is fractional works). -/
def cal64 : CalibrationData := ⟨64, false, 0⟩

/-- A log store holding one entry for hour 1748779200, head 0: 3 mL scheduled
and 1 mL ad-hoc already tallied. -/
def seedStore : LogStore := ⟨[(getLogKey 1748779200 0, ⟨1748779200, 0, 3, 1⟩)], 1⟩

/-! ## Helper lemmas -/

theorem sub32_eq_sub {a b : Nat} (hba : b ≤ a) (ha : a < UINT32_MOD) :
    sub32 a b = a - b := by
  simp only [sub32, UINT32_MOD] at *
  omega

theorem schedule_isValid_iff (s : Schedule) :
    s.isValid = true ↔
      s.head < 4 ∧ 0 < s.volume ∧ s.volume ≤ 1000 ∧
      60 ≤ s.intervalSeconds ∧ s.intervalSeconds ≤ 86400 ∧
      0 < s.dailyTargetVolume ∧ s.dosesPerDay ≠ 0 := by
  constructor
  · intro hv
    unfold Schedule.isValid at hv
    split_ifs at hv with h1 h2 h3 h4
    push_neg at h1 h2 h3 h4
    exact ⟨by omega, h2.1, h2.2, by omega, by omega, h4.1, h4.2⟩
  · rintro ⟨h1, h2, h3, h4, h5, h6, h7⟩
    unfold Schedule.isValid
    rw [if_neg (by omega), if_neg (by push_neg; exact ⟨h2, h3⟩),
        if_neg (by omega), if_neg (by push_neg; exact ⟨h6, h7⟩)]

theorem hourly_isValid_iff (log : HourlyDoseLog) :
    log.isValid = true ↔
      log.head < 4 ∧ 0 ≤ log.scheduledVolume ∧ 0 ≤ log.adhocVolume ∧
      946684800 ≤ log.hourTimestamp ∧ log.hourTimestamp % 3600 = 0 := by
  constructor
  · intro hv
    unfold HourlyDoseLog.isValid at hv
    split_ifs at hv with h1 h2 h3 h4
    push_neg at h1 h2 h3 h4
    exact ⟨by omega, h2.1, h2.2, by omega, by omega⟩
  · rintro ⟨h1, h2, h3, h4, h5⟩
    unfold HourlyDoseLog.isValid
    rw [if_neg (by omega), if_neg (by push_neg; exact ⟨h2, h3⟩),
        if_neg (by omega), if_neg (by omega)]

theorem findEntry_eraseEntry (l : List (LogKey × HourlyDoseLog)) (key k : LogKey) :
    findEntry (eraseEntry l key) k = if k = key then none else findEntry l k := by
  induction l with
  | nil =>
      simp only [eraseEntry, findEntry]
      split <;> rfl
  | cons p rest ih =>
      obtain ⟨k', e⟩ := p
      by_cases h1 : k' = key
      · rw [show eraseEntry ((k', e) :: rest) key = eraseEntry rest key from by
              simp [eraseEntry, h1], ih]
        by_cases h2 : k = key
        · simp [h2]
        · rw [if_neg h2, if_neg h2]
          have : ¬k' = k := by rw [h1]; intro h; exact h2 h.symm
          simp [findEntry, this]
      · rw [show eraseEntry ((k', e) :: rest) key = (k', e) :: eraseEntry rest key from by
              simp [eraseEntry, h1]]
        by_cases h3 : k' = k
        · have h4 : ¬k = key := by rw [← h3]; intro h; exact h1 h
          simp [findEntry, h3, h4]
        · simp only [findEntry, if_neg h3, ih]

theorem lookup_setEntry (st : LogStore) (key : LogKey) (e : HourlyDoseLog) (k : LogKey) :
    (st.setEntry key e).lookup k = if k = key then some e else st.lookup k := by
  simp only [LogStore.setEntry, LogStore.lookup, findEntry]
  by_cases h : key = k
  · simp [h]
  · rw [if_neg h, findEntry_eraseEntry,
        if_neg (fun hh => h hh.symm), if_neg (fun hh => h hh.symm)]

theorem saveLog_lookup_merge (st : LogStore) (log existingLog : HourlyDoseLog)
    (hv : log.isValid = true)
    (hex : st.lookup (getLogKey log.hourTimestamp log.head) = some existingLog) :
    (saveLog st log).1.lookup (getLogKey log.hourTimestamp log.head) =
      some { log with
        scheduledVolume := log.scheduledVolume + existingLog.scheduledVolume,
        adhocVolume := log.adhocVolume + existingLog.adhocVolume } ∧
    (saveLog st log).2 = true := by
  simp only [saveLog, hv, Bool.true_eq_false, not_true_eq_false, if_false, hex]
  exact ⟨by rw [lookup_setEntry, if_pos rfl], trivial⟩

theorem saveLog_lookup_new (st : LogStore) (log : HourlyDoseLog)
    (hv : log.isValid = true)
    (hex : st.lookup (getLogKey log.hourTimestamp log.head) = none) :
    (saveLog st log).1.lookup (getLogKey log.hourTimestamp log.head) = some log ∧
    (saveLog st log).2 = true := by
  simp only [saveLog, hv, Bool.true_eq_false, not_true_eq_false, if_false, hex]
  exact ⟨by simp only [LogStore.lookup, LogStore.setEntry]; rw [show findEntry
    ((getLogKey log.hourTimestamp log.head, log) ::
      eraseEntry st.entries (getLogKey log.hourTimestamp log.head))
    (getLogKey log.hourTimestamp log.head) = some log from by
      simp [findEntry]], trivial⟩

theorem saveLog_lookup_other (st : LogStore) (log : HourlyDoseLog) (k : LogKey)
    (hk : k ≠ getLogKey log.hourTimestamp log.head) :
    (saveLog st log).1.lookup k = st.lookup k := by
  simp only [saveLog]
  split
  · rfl
  · split
    · rw [lookup_setEntry, if_neg hk]
    · show ({ (st.setEntry _ log) with logCount := st.logCount + 1 }).lookup k = _
      show findEntry (st.setEntry _ log).entries k = _
      rw [show findEntry (st.setEntry (getLogKey log.hourTimestamp log.head) log).entries k
            = (st.setEntry (getLogKey log.hourTimestamp log.head) log).lookup k from rfl,
          lookup_setEntry, if_neg hk]

theorem saveLog_lookup_some_of (st : LogStore) (log : HourlyDoseLog) (k : LogKey)
    (e : HourlyDoseLog) (h : (saveLog st log).1.lookup k = some e)
    (hst : StoreEntriesValid st) : e.isValid = true := by
  by_cases hv : log.isValid = true
  · by_cases hk : k = getLogKey log.hourTimestamp log.head
    · subst hk
      rcases hex : st.lookup (getLogKey log.hourTimestamp log.head) with _ | existingLog
      · rw [(saveLog_lookup_new st log hv hex).1] at h
        exact (Option.some_inj.mp h) ▸ hv
      · rw [(saveLog_lookup_merge st log existingLog hv hex).1] at h
        have hval := hst _ _ hex
        rw [hourly_isValid_iff] at hv hval ⊢
        obtain ⟨a1, a2, a3, a4, a5⟩ := hv
        obtain ⟨b1, b2, b3, b4, b5⟩ := hval
        rw [← Option.some_inj.mp h]
        exact ⟨a1, by positivity, by positivity, a4, a5⟩
    · rw [saveLog_lookup_other st log k hk] at h
      exact hst _ _ h
  · have : (saveLog st log).1 = st := by
      simp only [saveLog]
      rw [if_pos (by simp [hv])]
    rw [this] at h
    exact hst _ _ h

theorem findEntry_erase_none (l : List (LogKey × HourlyDoseLog)) (key k : LogKey)
    (h : findEntry l k = none) : findEntry (eraseEntry l key) k = none := by
  rw [findEntry_eraseEntry]
  split <;> simp [h]

theorem pruneStepHour_entries (acc : LogStore × Nat) (hour : Nat) :
    (pruneStepHour acc hour).1.entries =
      eraseEntry (eraseEntry (eraseEntry (eraseEntry acc.1.entries
        (getLogKey hour 0)) (getLogKey hour 1)) (getLogKey hour 2)) (getLogKey hour 3) := by
  rfl

theorem pruneStepHour_lookup_hit (acc : LogStore × Nat) (hour hd : Nat) (hhd : hd < 4) :
    (pruneStepHour acc hour).1.lookup (getLogKey hour hd) = none := by
  show findEntry (pruneStepHour acc hour).1.entries _ = none
  rw [pruneStepHour_entries]
  interval_cases hd
  · refine findEntry_erase_none _ _ _ (findEntry_erase_none _ _ _
      (findEntry_erase_none _ _ _ ?_))
    rw [findEntry_eraseEntry, if_pos rfl]
  · refine findEntry_erase_none _ _ _ (findEntry_erase_none _ _ _ ?_)
    rw [findEntry_eraseEntry, if_pos rfl]
  · refine findEntry_erase_none _ _ _ ?_
    rw [findEntry_eraseEntry, if_pos rfl]
  · rw [findEntry_eraseEntry, if_pos rfl]

theorem pruneStepHour_lookup_miss (acc : LogStore × Nat) (hour : Nat) (k : LogKey)
    (hk : ∀ hd, hd < 4 → k ≠ getLogKey hour hd) :
    (pruneStepHour acc hour).1.lookup k = acc.1.lookup k := by
  show findEntry (pruneStepHour acc hour).1.entries k = _
  rw [pruneStepHour_entries, findEntry_eraseEntry, if_neg (hk 3 (by omega)),
      findEntry_eraseEntry, if_neg (hk 2 (by omega)),
      findEntry_eraseEntry, if_neg (hk 1 (by omega)),
      findEntry_eraseEntry, if_neg (hk 0 (by omega))]
  rfl

theorem pruneStepHour_lookup_none (acc : LogStore × Nat) (hour : Nat) (k : LogKey)
    (h : acc.1.lookup k = none) : (pruneStepHour acc hour).1.lookup k = none := by
  show findEntry (pruneStepHour acc hour).1.entries k = none
  rw [pruneStepHour_entries]
  exact findEntry_erase_none _ _ _ (findEntry_erase_none _ _ _
    (findEntry_erase_none _ _ _ (findEntry_erase_none _ _ _ h)))

theorem pruneRange_succ (st : LogStore) (startHour n : Nat) :
    pruneRange st startHour (n + 1) =
      pruneStepHour (pruneRange st startHour n) (startHour + 3600 * n) := by
  simp only [pruneRange, List.range_succ, List.foldl_append, List.foldl_cons, List.foldl_nil]

theorem pruneRange_lookup_none (st : LogStore) (startHour n : Nat) (i hd : Nat)
    (hi : i < n) (hhd : hd < 4) :
    (pruneRange st startHour n).1.lookup (getLogKey (startHour + 3600 * i) hd) = none := by
  induction n with
  | zero => omega
  | succ m ih =>
      rw [pruneRange_succ]
      by_cases him : i = m
      · subst him
        exact pruneStepHour_lookup_hit _ _ _ hhd
      · exact pruneStepHour_lookup_none _ _ _ (ih (by omega))

theorem pruneRange_lookup_miss (st : LogStore) (startHour n : Nat) (k : LogKey)
    (hk : ∀ i, i < n → ∀ hd, hd < 4 → k ≠ getLogKey (startHour + 3600 * i) hd) :
    (pruneRange st startHour n).1.lookup k = st.lookup k := by
  induction n with
  | zero => rfl
  | succ m ih =>
      rw [pruneRange_succ,
          pruneStepHour_lookup_miss _ _ _ (fun hd hhd => hk m (by omega) hd hhd)]
      exact ih (fun i hi hd hhd => hk i (by omega) hd hhd)

theorem pruneRange_lookup_some (st : LogStore) (startHour n : Nat) (k : LogKey)
    (e : HourlyDoseLog) (h : (pruneRange st startHour n).1.lookup k = some e) :
    st.lookup k = some e := by
  induction n with
  | zero => exact h
  | succ m ih =>
      rw [pruneRange_succ] at h
      apply ih
      rcases hprev : (pruneRange st startHour m).1.lookup k with _ | e'
      · rw [pruneStepHour_lookup_none _ _ _ hprev] at h
        exact absurd h (by simp)
      · by_cases hhit : ∃ hd, hd < 4 ∧ k = getLogKey (startHour + 3600 * m) hd
        · obtain ⟨hd, hhd, rfl⟩ := hhit
          rw [pruneStepHour_lookup_hit _ _ _ hhd] at h
          exact absurd h (by simp)
        · push_neg at hhit
          rw [pruneStepHour_lookup_miss _ _ _ (fun hd hhd => hhit hd hhd), hprev] at h
          exact h

theorem lookup_ifCount (a : LogStore × Nat) (c : Prop) [Decidable c] (n : Nat) (k : LogKey) :
    ((if c then ({ a.1 with logCount := n }, a.2) else (a.1, a.2)).1).lookup k =
      a.1.lookup k := by
  split <;> rfl

theorem pruneOldLogs_lookup_eq_range (st : LogStore) (currentTime : Nat) (k : LogKey) :
    (pruneOldLogs st currentTime).1.lookup k =
      (pruneRange st
        (sub32 ((sub32 currentTime (LOG_RETENTION_HOURS * 3600)) / 3600 * 3600)
          (30 * 24 * 3600))
        (((sub32 currentTime (LOG_RETENTION_HOURS * 3600)) / 3600 * 3600 -
            sub32 ((sub32 currentTime (LOG_RETENTION_HOURS * 3600)) / 3600 * 3600)
              (30 * 24 * 3600) + 3599) / 3600)).1.lookup k := by
  simp only [pruneOldLogs]
  rw [lookup_ifCount]

theorem dispense_success_result (init : Bool) (cal : CalibrationData) (hIdx : Nat)
    (ok : Bool) (meas : Nat) (v : ℚ)
    (h : (dispense init cal hIdx ok meas v).1.success = true) :
    (dispense init cal hIdx ok meas v).1 =
      { success := true, actualRuntime := meas, targetVolume := v,
        estimatedVolume := estimateVolume cal meas, errorMessage := "" } ∧
    (dispense init cal hIdx ok meas v).2 =
      [MotorCmd.start hIdx, MotorCmd.stop hIdx] := by
  unfold dispense at h ⊢
  split_ifs at h ⊢ <;> try simp_all
  all_goals (split_ifs at h ⊢ <;> simp_all)

theorem updateLastExecution_cache_self (st : SystemState) (head executionTime : Nat)
    (s : Schedule) (hh : head < 4) (hs : st.cache head = some s) :
    (updateLastExecution st head executionTime).cache head =
      some (stampExecution s executionTime) := by
  have h4 : ¬4 ≤ head := by omega
  simp only [updateLastExecution, h4, if_false, hs, stampExecution]
  simp

theorem updateLastExecution_cache_ne (st : SystemState) (head executionTime h : Nat)
    (hne : head ≠ h) :
    (updateLastExecution st head executionTime).cache h = st.cache h := by
  unfold updateLastExecution
  split
  · rfl
  · split
    · show (fun h' => if h' = head then _ else st.cache h') h = st.cache h
      simp only
      rw [if_neg (fun hh => hne hh.symm)]
    · rfl

theorem updateLastExecution_consistent (st : SystemState) (head executionTime : Nat)
    (hcons : CacheConsistent st) :
    CacheConsistent (updateLastExecution st head executionTime) := by
  intro h s hs
  unfold updateLastExecution at hs
  split at hs
  · exact hcons h s hs
  · split at hs
    · next s0 hs0 =>
        simp only at hs
        by_cases hh : h = head
        · rw [if_pos hh] at hs
          cases hs
          exact (hcons head s0 hs0).trans hh.symm
        · rw [if_neg hh] at hs
          exact hcons h s hs
    · exact hcons h s hs

theorem executeSchedule_failure (env : DoseEnv) (st : SystemState) (sched : Schedule)
    (t : Nat) (hf : (headDispense env sched.head sched.volume).1.success = false) :
    executeSchedule env st sched t = st := by
  simp only [executeSchedule, hf]
  by_cases h4 : 4 ≤ sched.head
  · rw [if_pos h4]
  · rw [if_neg h4, if_neg (by simp)]

theorem executeSchedule_cache_ne (env : DoseEnv) (st : SystemState) (sched : Schedule)
    (t h : Nat) (hne : sched.head ≠ h) :
    (executeSchedule env st sched t).cache h = st.cache h := by
  simp only [executeSchedule]
  by_cases h4 : 4 ≤ sched.head
  · rw [if_pos h4]
  · rw [if_neg h4]
    by_cases hsucc : (headDispense env sched.head sched.volume).1.success = true
    · rw [if_pos hsucc]
      exact updateLastExecution_cache_ne _ _ _ _ hne
    · rw [if_neg hsucc]

theorem executeSchedule_consistent (env : DoseEnv) (st : SystemState) (sched : Schedule)
    (t : Nat) (hcons : CacheConsistent st) :
    CacheConsistent (executeSchedule env st sched t) := by
  simp only [executeSchedule]
  by_cases h4 : 4 ≤ sched.head
  · rw [if_pos h4]; exact hcons
  · rw [if_neg h4]
    by_cases hsucc : (headDispense env sched.head sched.volume).1.success = true
    · rw [if_pos hsucc]
      exact updateLastExecution_consistent _ _ _ (fun h s hs => hcons h s hs)
    · rw [if_neg hsucc]; exact hcons

theorem checkHead_cache_ne (env : DoseEnv) (t : Nat) (acc : SystemState) (k h : Nat)
    (hk : k ≠ h) (hcons : CacheConsistent acc) :
    (checkHead env t acc k).cache h = acc.cache h := by
  rcases hc : acc.cache k with _ | s
  · simp only [checkHead, hc]
  · have hhead : s.head = k := hcons k s hc
    simp only [checkHead, hc]
    by_cases he : s.enabled = true
    · rw [if_pos he]
      by_cases hdue : s.shouldExecute t = true
      · rw [if_pos hdue]
        exact executeSchedule_cache_ne _ _ _ _ _ (by rw [hhead]; exact hk)
      · rw [if_neg hdue]
    · rw [if_neg he]

theorem checkHead_consistent (env : DoseEnv) (t : Nat) (acc : SystemState) (k : Nat)
    (hcons : CacheConsistent acc) : CacheConsistent (checkHead env t acc k) := by
  rcases hc : acc.cache k with _ | s
  · simp only [checkHead, hc]; exact hcons
  · simp only [checkHead, hc]
    by_cases he : s.enabled = true
    · rw [if_pos he]
      by_cases hdue : s.shouldExecute t = true
      · rw [if_pos hdue]
        exact executeSchedule_consistent _ _ _ _ hcons
      · rw [if_neg hdue]; exact hcons
    · rw [if_neg he]; exact hcons

theorem checkHead_cache_self (env : DoseEnv) (t : Nat) (acc : SystemState) (h : Nat)
    (hh : h < 4) (hcons : CacheConsistent acc) :
    (checkHead env t acc h).cache h = slotTick env t h (acc.cache h) := by
  rcases hc : acc.cache h with _ | s
  · simp only [checkHead, hc, slotTick]
  · have hhead : s.head = h := hcons h s hc
    simp only [checkHead, hc, slotTick]
    by_cases he : s.enabled = true
    · by_cases hdue : s.shouldExecute t = true
      · rw [if_pos he, if_pos hdue]
        simp only [executeSchedule]
        rw [if_neg (by rw [hhead]; omega), hhead]
        by_cases hsucc : (headDispense env h s.volume).1.success = true
        · rw [if_pos hsucc, if_pos ⟨he, hdue, hsucc⟩]
          exact updateLastExecution_cache_self _ _ _ _ hh hc
        · rw [if_neg hsucc, hc,
              if_neg (fun hand => hsucc hand.2.2)]
      · rw [if_pos he, if_neg hdue, hc, if_neg (fun hand => hdue hand.2.1)]
    · rw [if_neg he, hc, if_neg (fun hand => he hand.1)]

theorem checkAndExecute_cache_eq (env : DoseEnv) (t : Nat) (st : SystemState) (h : Nat)
    (hh : h < 4) (hcons : CacheConsistent st) :
    (checkAndExecute env t st).cache h = slotTick env t h (st.cache h) := by
  have c0 := checkHead_consistent env t st 0 hcons
  have c1 := checkHead_consistent env t _ 1 c0
  have c2 := checkHead_consistent env t _ 2 c1
  show (checkHead env t (checkHead env t (checkHead env t (checkHead env t st 0) 1) 2) 3).cache h = _
  interval_cases h
  · rw [checkHead_cache_ne _ _ _ _ _ (by omega) c2,
        checkHead_cache_ne _ _ _ _ _ (by omega) c1,
        checkHead_cache_ne _ _ _ _ _ (by omega) c0,
        checkHead_cache_self _ _ _ _ (by omega) hcons]
  · rw [checkHead_cache_ne _ _ _ _ _ (by omega) c2,
        checkHead_cache_ne _ _ _ _ _ (by omega) c1,
        checkHead_cache_self _ _ _ _ (by omega) c0,
        checkHead_cache_ne _ _ _ _ _ (by omega) hcons]
  · rw [checkHead_cache_ne _ _ _ _ _ (by omega) c2,
        checkHead_cache_self _ _ _ _ (by omega) c1,
        checkHead_cache_ne _ _ _ _ _ (by omega) c0,
        checkHead_cache_ne _ _ _ _ _ (by omega) hcons]
  · rw [checkHead_cache_self _ _ _ _ (by omega) c2,
        checkHead_cache_ne _ _ _ _ _ (by omega) c1,
        checkHead_cache_ne _ _ _ _ _ (by omega) c0,
        checkHead_cache_ne _ _ _ _ _ (by omega) hcons]

theorem shouldExecute_of_never (s : Schedule) (t : Nat)
    (he : s.enabled = true) (hv : s.isValid = true) (h0 : s.lastExecutionTime = 0) :
    s.shouldExecute t = true := by
  unfold Schedule.shouldExecute
  rw [if_neg (by simp [he, hv]), if_pos h0]

theorem shouldExecute_iff_elapsed (s : Schedule) (t : Nat)
    (he : s.enabled = true) (hv : s.isValid = true) (h0 : s.lastExecutionTime ≠ 0)
    (hle : s.lastExecutionTime ≤ t) (ht : t < UINT32_MOD) :
    (s.shouldExecute t = true ↔ s.lastExecutionTime + s.intervalSeconds ≤ t) := by
  unfold Schedule.shouldExecute
  rw [if_neg (by simp [he, hv]), if_neg h0, sub32_eq_sub hle ht]
  simp only [decide_eq_true_eq]
  omega

theorem stampExecution_isValid (s : Schedule) (t : Nat) :
    (stampExecution s t).isValid = s.isValid := rfl

theorem stampExecution_enabled (s : Schedule) (t : Nat) :
    (stampExecution s t).enabled = s.enabled := rfl

theorem stampExecution_not_due_again (s : Schedule) (t : Nat)
    (hv : s.isValid = true) (ht : 0 < t) (htM : t < UINT32_MOD) :
    (stampExecution s t).shouldExecute t = false := by
  have hiv : 60 ≤ s.intervalSeconds := ((schedule_isValid_iff s).mp hv).2.2.2.1
  unfold Schedule.shouldExecute
  by_cases he : s.enabled = true
  · rw [if_neg (by simp [stampExecution_enabled, stampExecution_isValid, he, hv]),
        if_neg (by show ¬t = 0; omega)]
    have hz : sub32 t t = 0 := by rw [sub32_eq_sub (le_refl t) htM]; omega
    show decide (s.intervalSeconds ≤ sub32 t t) = false
    rw [hz]
    simp only [decide_eq_false_iff_not]
    omega
  · rw [if_pos (Or.inl (by rw [stampExecution_enabled]; exact fun hb => he hb))]

theorem calculateRuntime_bounds (cal : CalibrationData) (v : ℚ)
    (hr : 0 < cal.mlPerSecond) (hv : 0 ≤ v) :
    (calculateRuntime cal v : ℚ) ≤ v / cal.mlPerSecond * 1000 ∧
    v / cal.mlPerSecond * 1000 < calculateRuntime cal v + 1 := by
  unfold calculateRuntime
  rw [if_neg (not_le.mpr hr)]
  have hx : (0 : ℚ) ≤ v / cal.mlPerSecond * 1000 := by positivity
  have hfl : (0 : ℤ) ≤ ⌊v / cal.mlPerSecond * 1000⌋ := Int.floor_nonneg.mpr hx
  constructor
  · calc ((⌊v / cal.mlPerSecond * 1000⌋.toNat : ℤ) : ℚ)
        = ((⌊v / cal.mlPerSecond * 1000⌋ : ℤ) : ℚ) := by rw [Int.toNat_of_nonneg hfl]
      _ ≤ v / cal.mlPerSecond * 1000 := Int.floor_le _
  · calc v / cal.mlPerSecond * 1000
        < (⌊v / cal.mlPerSecond * 1000⌋ : ℚ) + 1 := Int.lt_floor_add_one _
      _ = ((⌊v / cal.mlPerSecond * 1000⌋.toNat : ℤ) : ℚ) + 1 := by
          rw [Int.toNat_of_nonneg hfl]

theorem estimate_ne_target (cal : CalibrationData) (meas : Nat) (v : ℚ)
    (hr : 0 < cal.mlPerSecond) (hne : meas ≠ calculateRuntime cal v) :
    estimateVolume cal meas ≠ v := by
  intro heq
  apply hne
  unfold estimateVolume at heq
  have hx : v / cal.mlPerSecond * 1000 = (meas : ℚ) := by
    field_simp
    rw [← heq]
    ring
  unfold calculateRuntime
  rw [if_neg (not_le.mpr hr), hx]
  rw [Int.floor_natCast, Int.toNat_natCast]

theorem updateLastExecution_log (st : SystemState) (head executionTime : Nat) :
    (updateLastExecution st head executionTime).log = st.log := by
  unfold updateLastExecution
  split
  · rfl
  · rcases st.cache head with _ | s <;> rfl

theorem executeSchedule_log_success (env : DoseEnv) (st : SystemState) (sched : Schedule)
    (t : Nat) (h4 : sched.head < 4)
    (hs : (headDispense env sched.head sched.volume).1.success = true) :
    (executeSchedule env st sched t).log =
      (logScheduledDose st.log sched.head
        (headDispense env sched.head sched.volume).1.estimatedVolume t).1 := by
  simp only [executeSchedule]
  rw [if_neg (by omega), if_pos hs, updateLastExecution_log]

theorem logEntry_isValid_of (h ts : Nat) (v : ℚ) (hh : h < 4)
    (hts : 1577836800 ≤ ts) (hv : 0 ≤ v) :
    (⟨roundToHour ts, h, v, 0⟩ : HourlyDoseLog).isValid = true := by
  rw [hourly_isValid_iff]
  refine ⟨hh, hv, le_refl 0, ?_, ?_⟩
  · show 946684800 ≤ roundToHour ts
    unfold roundToHour
    omega
  · show roundToHour ts % 3600 = 0
    unfold roundToHour
    omega

theorem logScheduledDose_merge (st : LogStore) (h : Nat) (v : ℚ) (ts : Nat)
    (e : HourlyDoseLog) (hh : h < 4) (hts : 1577836800 ≤ ts) (hv : 0 ≤ v)
    (hex : st.lookup (getLogKey (roundToHour ts) h) = some e) :
    (logScheduledDose st h v ts).1.lookup (getLogKey (roundToHour ts) h) =
      some ⟨roundToHour ts, h, v + e.scheduledVolume, e.adhocVolume⟩ := by
  unfold logScheduledDose logDoseInternal
  rw [if_neg (by omega), if_neg (by omega)]
  have hkey := (saveLog_lookup_merge st ⟨roundToHour ts, h, v, 0⟩ e
    (logEntry_isValid_of h ts v hh hts hv) hex).1
  simpa using hkey

theorem logScheduledDose_new (st : LogStore) (h : Nat) (v : ℚ) (ts : Nat)
    (hh : h < 4) (hts : 1577836800 ≤ ts) (hv : 0 ≤ v)
    (hex : st.lookup (getLogKey (roundToHour ts) h) = none) :
    (logScheduledDose st h v ts).1.lookup (getLogKey (roundToHour ts) h) =
      some ⟨roundToHour ts, h, v, 0⟩ := by
  unfold logScheduledDose logDoseInternal
  rw [if_neg (by omega), if_neg (by omega)]
  exact (saveLog_lookup_new st ⟨roundToHour ts, h, v, 0⟩
    (logEntry_isValid_of h ts v hh hts hv) hex).1

theorem headDispense_def (env : DoseEnv) (h : Nat) (v : ℚ) :
    headDispense env h v =
      dispense (env.initialized h) (env.cal h) h (env.motorStartOk h)
        (env.measuredRuntime h) v := rfl

theorem demoState_consistent : CacheConsistent demoState := by
  intro h s hs
  by_cases h0 : h = 0
  · subst h0
    have hq : demoState.cache 0 = some demoSchedule := rfl
    rw [hq] at hs
    cases hs
    rfl
  · have hq : demoState.cache h = none := by
      show (if h = 0 then some demoSchedule else none) = none
      rw [if_neg h0]
    rw [hq] at hs
    cases hs

theorem prune_lookup_some (st : LogStore) (t : Nat) (k : LogKey) (e : HourlyDoseLog)
    (h : (pruneOldLogs st t).1.lookup k = some e) : st.lookup k = some e := by
  rw [pruneOldLogs_lookup_eq_range] at h
  exact pruneRange_lookup_some _ _ _ _ _ h

theorem storeValid_empty : StoreEntriesValid emptyLogStore := by
  intro k e h
  exact absurd h (by simp [LogStore.lookup, emptyLogStore, findEntry])

theorem saveLog_preserves_valid (st : LogStore) (log : HourlyDoseLog)
    (hst : StoreEntriesValid st) : StoreEntriesValid (saveLog st log).1 :=
  fun k e h => saveLog_lookup_some_of st log k e h hst

theorem logScheduledDose_preserves_valid (st : LogStore) (head : Nat) (volume : ℚ)
    (timestamp : Nat) (hst : StoreEntriesValid st) :
    StoreEntriesValid (logScheduledDose st head volume timestamp).1 := by
  intro k e h
  simp only [logScheduledDose, logDoseInternal] at h
  split_ifs at h
  · exact hst _ _ h
  · exact hst _ _ h
  · exact saveLog_lookup_some_of _ _ _ _ h hst

theorem logAdhocDose_preserves_valid (st : LogStore) (head : Nat) (volume : ℚ)
    (timestamp : Nat) (hst : StoreEntriesValid st) :
    StoreEntriesValid (logAdhocDose st head volume timestamp).1 := by
  intro k e h
  simp only [logAdhocDose, logDoseInternal] at h
  split_ifs at h
  · exact hst _ _ h
  · exact hst _ _ h
  · exact saveLog_lookup_some_of _ _ _ _ h hst

theorem pruneOldLogs_preserves_valid (st : LogStore) (currentTime : Nat)
    (hst : StoreEntriesValid st) : StoreEntriesValid (pruneOldLogs st currentTime).1 :=
  fun k e h => hst k e (prune_lookup_some st currentTime k e h)

theorem clearAllLogs_valid (st : LogStore) : StoreEntriesValid (clearAllLogs st) :=
  fun k e h => absurd h (by simp [clearAllLogs, LogStore.lookup, emptyLogStore, findEntry])

theorem logScheduled_fold_acc (h H : Nat) (hh : h < 4) :
    ∀ (calls : List (ℚ × Nat)),
      (∀ p ∈ calls, 0 ≤ p.1 ∧ 1577836800 ≤ p.2 ∧ roundToHour p.2 = H) →
      ∀ (st : LogStore) (e : HourlyDoseLog),
        st.lookup (getLogKey H h) = some e →
        e.hourTimestamp = H → e.head = h →
        ∃ e', (calls.foldl (fun acc p => (logScheduledDose acc h p.1 p.2).1) st).lookup
                (getLogKey H h) = some e' ∧
          e'.scheduledVolume = e.scheduledVolume + (calls.map Prod.fst).sum ∧
          e'.adhocVolume = e.adhocVolume ∧ e'.hourTimestamp = H ∧ e'.head = h := by
  intro calls
  induction calls with
  | nil =>
      intro _ st e hex he1 he2
      exact ⟨e, hex, by simp, rfl, he1, he2⟩
  | cons p rest ih =>
      intro hcalls st e hex he1 he2
      obtain ⟨hp1, hp2, hp3⟩ := hcalls p (by simp)
      have hstep := logScheduledDose_merge st h p.1 p.2 e hh hp2 hp1
        (by rw [hp3]; exact hex)
      rw [hp3] at hstep
      simp only [List.foldl_cons]
      obtain ⟨e', ha, hb, hc', hd', he'⟩ :=
        ih (fun q hq => hcalls q (by simp [hq])) _ _ hstep rfl rfl
      refine ⟨e', ha, ?_, by rw [hc'], hd', he'⟩
      rw [hb]
      show p.1 + e.scheduledVolume + (rest.map Prod.fst).sum = _
      simp only [List.map_cons, List.sum_cons]
      ring

/-! ## Claims -/

/-- C1, counterexample to the claim as stated: `shouldExecute` computes the
elapsed time with wrapping `uint32_t` subtraction, so a valid enabled
schedule whose `lastExecutionTime` (3000000000, year 2065 — reachable after
a manual backwards clock correction) lies in the future of the current time
1748779200 still fires, although over the integers
`t - last_execution_time = -1251220800 < interval_seconds = 7200`. -/
theorem c1_counterexample_wrapping_due :
    wrapSchedule.enabled = true ∧ wrapSchedule.isValid = true ∧
    wrapSchedule.lastExecutionTime = 3000000000 ∧
    wrapSchedule.intervalSeconds = 7200 ∧
    wrapSchedule.shouldExecute 1748779200 = true ∧
    (1748779200 : ℤ) - 3000000000 < 7200 := by
  refine ⟨rfl, by decide, rfl, rfl, by decide, by decide⟩

/-- C1 (amended): for an enabled valid cached schedule and a monotone clock
(`lastExecutionTime ≤ t < 2^32`), the due predicate is true when
`lastExecutionTime = 0` and otherwise exactly when
`lastExecutionTime + intervalSeconds ≤ t`; when due and the dispense
succeeds, the `checkAndExecute` tick stores `lastExecutionTime = t`,
increments `executionCount` by one and touches `updatedAt`, and the updated
schedule is no longer due at the same tick time (fires only once); when not
due, the slot is unchanged.  (The unamended claim fails only for a clock
that jumped backwards; see the counterexample.) -/
theorem c1_due_and_single_fire (env : DoseEnv) (st : SystemState) (h : Nat)
    (s : Schedule) (t : Nat)
    (hcons : CacheConsistent st) (hh : h < 4) (hc : st.cache h = some s)
    (he : s.enabled = true) (hv : s.isValid = true)
    (hle : s.lastExecutionTime ≤ t) (ht0 : 0 < t) (htM : t < UINT32_MOD)
    (hsucc : (headDispense env h s.volume).1.success = true) :
    (s.lastExecutionTime = 0 → s.shouldExecute t = true) ∧
    (s.lastExecutionTime ≠ 0 →
      (s.shouldExecute t = true ↔ s.lastExecutionTime + s.intervalSeconds ≤ t)) ∧
    (s.shouldExecute t = true →
      (checkAndExecute env t st).cache h = some (stampExecution s t) ∧
      (stampExecution s t).lastExecutionTime = t ∧
      (stampExecution s t).executionCount = s.executionCount + 1 ∧
      (stampExecution s t).updatedAt = t ∧
      (stampExecution s t).shouldExecute t = false) ∧
    (s.shouldExecute t = false → (checkAndExecute env t st).cache h = some s) := by
  refine ⟨fun h0 => shouldExecute_of_never s t he hv h0,
          fun h0 => shouldExecute_iff_elapsed s t he hv h0 hle htM, ?_, ?_⟩
  · intro hdue
    refine ⟨?_, rfl, rfl, rfl, stampExecution_not_due_again s t hv ht0 htM⟩
    rw [checkAndExecute_cache_eq env t st h hh hcons, hc]
    simp only [slotTick]
    rw [if_pos ⟨he, hdue, hsucc⟩]
  · intro hnotdue
    rw [checkAndExecute_cache_eq env t st h hh hcons, hc]
    simp only [slotTick]
    rw [if_neg (fun hand => by rw [hand.2.1] at hnotdue; cases hnotdue)]

/-- C1 witness: the demo schedule (2 mL every 7200 s, last executed at
1748779200) fires at tick time 1748786400 and is stamped accordingly. -/
theorem c1_due_and_single_fire_witness :
    demoSchedule.shouldExecute 1748786400 = true ∧
    (checkAndExecute demoEnv 1748786400 demoState).cache 0 =
      some (stampExecution demoSchedule 1748786400) ∧
    (stampExecution demoSchedule 1748786400).executionCount =
      demoSchedule.executionCount + 1 ∧
    (stampExecution demoSchedule 1748786400).shouldExecute 1748786400 = false := by
  have hsucc : (headDispense demoEnv 0 demoSchedule.volume).1.success = true := by
    show (dispense true defaultCalibration 0 true 2000 2).1.success = true
    norm_num [dispense, isValidVolume, isValidRuntime, calculateRuntime,
      defaultCalibration, MIN_VOLUME_ML, MAX_VOLUME_ML, MIN_RUNTIME_MS, MAX_RUNTIME_MS]
  have hmain := c1_due_and_single_fire demoEnv demoState 0 demoSchedule 1748786400
    demoState_consistent (by omega) rfl rfl (by decide) (by decide) (by decide)
    (by decide) hsucc
  have hfire := hmain.2.2.1 (by decide)
  exact ⟨by decide, hfire.1, hfire.2.2.1, hfire.2.2.2.2⟩

/-- C3: when the dispense performed during scheduled execution fails, the
whole state (cached schedule fields and the dosing log) is unchanged, the
tick leaves the slot untouched, and the due predicate remains true at every
later tick time, so the schedule is retried until a dispense succeeds. -/
theorem c3_failed_dispense_retry (env : DoseEnv) (st : SystemState) (h : Nat)
    (s : Schedule) (t t' : Nat)
    (hcons : CacheConsistent st) (hh : h < 4) (hc : st.cache h = some s)
    (hfail : (headDispense env h s.volume).1.success = false) :
    executeSchedule env st s t = st ∧
    (checkAndExecute env t st).cache h = st.cache h ∧
    (s.shouldExecute t = true → s.lastExecutionTime ≤ t → t ≤ t' →
      t' < UINT32_MOD → s.shouldExecute t' = true) := by
  have hhead : s.head = h := hcons h s hc
  refine ⟨executeSchedule_failure env st s t (by rw [hhead]; exact hfail), ?_, ?_⟩
  · rw [checkAndExecute_cache_eq env t st h hh hcons, hc]
    simp only [slotTick]
    rw [if_neg (fun hand => by rw [hfail] at hand; cases hand.2.2)]
  · intro hdue hlast hle htM'
    unfold Schedule.shouldExecute at hdue ⊢
    by_cases hcond : ¬s.enabled ∨ ¬s.isValid
    · rw [if_pos hcond] at hdue
      cases hdue
    · rw [if_neg hcond] at hdue ⊢
      by_cases h0 : s.lastExecutionTime = 0
      · rw [if_pos h0]
      · rw [if_neg h0] at hdue ⊢
        rw [sub32_eq_sub hlast (lt_of_le_of_lt hle htM')] at hdue
        rw [sub32_eq_sub (le_trans hlast hle) htM']
        simp only [decide_eq_true_eq] at hdue ⊢
        omega

/-- C3 witness: with a failing motor, the tick at 1748786400 changes nothing
and the demo schedule is still due at 1748787400. -/
theorem c3_failed_dispense_retry_witness :
    executeSchedule demoFailEnv demoState demoSchedule 1748786400 = demoState ∧
    (checkAndExecute demoFailEnv 1748786400 demoState).cache 0 =
      demoState.cache 0 ∧
    demoSchedule.shouldExecute 1748787400 = true := by
  have hfail : (headDispense demoFailEnv 0 demoSchedule.volume).1.success = false := by
    show (dispense true defaultCalibration 0 false 0 2).1.success = false
    norm_num [dispense, isValidVolume, isValidRuntime, calculateRuntime,
      defaultCalibration, MIN_VOLUME_ML, MAX_VOLUME_ML, MIN_RUNTIME_MS, MAX_RUNTIME_MS]
  have hmain := c3_failed_dispense_retry demoFailEnv demoState 0 demoSchedule
    1748786400 1748787400 demoState_consistent (by omega) rfl hfail
  exact ⟨hmain.1, hmain.2.1,
    hmain.2.2 (by decide) (by decide) (by omega) (by decide)⟩

/-- C7, counterexample to the claim as stated: `SchedulerTask::getCurrentTime`
treats the clock as unsynced only below 2000-01-01 (946684800), not below
2020-01-01 (1577836800) as the claim says, so a tick at wall time
1000000000 (2001-09-09) does invoke `checkAndExecute` with a time earlier
than 2020-01-01. -/
theorem c7_counterexample_tick_year2000 :
    (schedulerTick demoEnv 1000000000 emptySystemState).2 = some 1000000000 ∧
    (1000000000 : Nat) < 1577836800 := by
  exact ⟨by decide, by decide⟩

/-- C7 (amended): for wall-clock values below 2^32, a scheduler tick invokes
`checkAndExecute` exactly when the raw wall time is at least 2000-01-01
(946684800), and then with exactly that time; in particular the invocation
time is never below 946684800 (but may lie in [2000-01-01, 2020-01-01)). -/
theorem c7_tick_sync_gate (env : DoseEnv) (st : SystemState) (raw : Nat)
    (hraw : raw < UINT32_MOD) :
    ((schedulerTick env raw st).2 =
      if raw < 946684800 then none else some raw) ∧
    (∀ u, (schedulerTick env raw st).2 = some u → 946684800 ≤ u) := by
  have hmod : raw % UINT32_MOD = raw := Nat.mod_eq_of_lt hraw
  have hfst : (schedulerTick env raw st).2 =
      if raw < 946684800 then none else some raw := by
    simp only [schedulerTick, getCurrentTime]
    by_cases h : raw < 946684800
    · rw [if_pos h, if_pos h, if_neg (by omega)]
    · rw [if_neg h, if_neg h, hmod, if_pos (by omega)]
  refine ⟨hfst, fun u hu => ?_⟩
  rw [hfst] at hu
  by_cases h : raw < 946684800
  · rw [if_pos h] at hu
    cases hu
  · rw [if_neg h] at hu
    cases hu
    omega

/-- C7 witness: at wall time 1748779200 the tick runs `checkAndExecute`
with exactly that time, which is at least 946684800. -/
theorem c7_tick_sync_gate_witness :
    (schedulerTick demoEnv 1748779200 emptySystemState).2 = some 1748779200 ∧
    946684800 ≤ 1748779200 := by
  have hmain := c7_tick_sync_gate demoEnv emptySystemState 1748779200 (by decide)
  have h1 : (schedulerTick demoEnv 1748779200 emptySystemState).2 =
      some 1748779200 := by
    rw [hmain.1]
    decide
  exact ⟨h1, hmain.2 1748779200 h1⟩

/-- C9: the claim is right and the code is wrong.  `Schedule.h` documents
`createdAt` and `updatedAt` as "Unix epoch time", and
`ScheduleManager::updateLastExecution` writes wall-clock seconds into
`updatedAt`, but `WebServer::handlePostSchedule` stamps both fields with
`millis() / 1000` — seconds since boot.  Evaluated at the failing input
(device uptime 120000 ms while the wall clock reads 1748779200), the stored
schedule carries `createdAt = updatedAt = 120`, not the wall-clock time. -/
theorem c9_schedule_timestamps_uptime :
    (handlePostSchedule emptySystemState 120000 1 24 12 true "S").2 = true ∧
    ((handlePostSchedule emptySystemState 120000 1 24 12 true "S").1.cache 1).map
        (fun s => (s.createdAt, s.updatedAt)) = some (120, 120) ∧
    (120 : Nat) ≠ 1748779200 := by
  have hreq : validateScheduleRequest 1 24 12 true "S" =
      some { head := 1, enabled := true, dailyTargetVolume := 24,
             dosesPerDay := 12, volume := 2, intervalSeconds := 7200,
             lastExecutionTime := 0, executionCount := 0, name := "S",
             createdAt := 0, updatedAt := 0 } := by
    norm_num [validateScheduleRequest, Schedule.calculateFromDailyTarget]
  have hval : validateSchedule
      { head := 1, enabled := true, dailyTargetVolume := 24,
        dosesPerDay := 12, volume := 2, intervalSeconds := 7200,
        lastExecutionTime := 0, executionCount := 0, name := "S",
        createdAt := 120, updatedAt := 120 } = true := by
    norm_num [validateSchedule]
  refine ⟨?_, ?_, by decide⟩ <;>
    simp [handlePostSchedule, hreq, setSchedule, hval]

/-- C2, counterexample to the claim as stated: `calculateRuntime` truncates
(`static_cast<uint32_t>`), it does not round to nearest.  At calibration
64 mL/s and volume 37.5 mL the exact runtime is 585.9375 ms: the code
computes 585, while the claimed `round` gives 586.  (Both values are exact
dyadic floats, so the float computation agrees.) -/
theorem c2_counterexample_truncation_vs_round :
    calculateRuntime cal64 (75 / 2) = 585 ∧
    specRuntimeMs cal64 (75 / 2) = 586 ∧
    (585 : Nat) ≠ 586 := by
  refine ⟨?_, ?_, by decide⟩
  · have hx : (75 / 2 : ℚ) / (64 : ℚ) * 1000 = 9375 / 16 := by norm_num
    norm_num [calculateRuntime, cal64, hx]
    decide
  · have hx : (75 / 2 : ℚ) / (64 : ℚ) * 1000 = 9375 / 16 := by norm_num
    rw [specRuntimeMs, if_neg (by norm_num [cal64])]
    norm_num [cal64, hx, round_eq]
    decide

/-- C2 (amended): `dispense` rejects volumes outside [0.1, 1000] mL with an
error and no actuator command; the computed runtime is the *truncation* of
`volume / ml_per_second * 1000` (the claim's `round` is the only amendment);
a runtime outside [100 ms, 300000 ms] is rejected with no actuator command;
on success the result reports `actual_runtime = measured` and
`estimated_volume = ml_per_second * measured / 1000`, bracketed by a
start/stop command pair. -/
theorem c2_dispense_behaviour (cal : CalibrationData) (hIdx : Nat) (ok : Bool)
    (meas : Nat) (v : ℚ) (hr : 0 < cal.mlPerSecond) :
    (0 ≤ v → ((calculateRuntime cal v : ℚ) ≤ v / cal.mlPerSecond * 1000 ∧
       v / cal.mlPerSecond * 1000 < calculateRuntime cal v + 1)) ∧
    (isValidVolume v = false →
       (dispense true cal hIdx ok meas v).1.success = false ∧
       (dispense true cal hIdx ok meas v).2 = [] ∧
       (dispense true cal hIdx ok meas v).1.errorMessage ≠ "") ∧
    (isValidVolume v = true →
       (calculateRuntime cal v < 100 ∨ 300000 < calculateRuntime cal v) →
       (dispense true cal hIdx ok meas v).1.success = false ∧
       (dispense true cal hIdx ok meas v).2 = [] ∧
       (dispense true cal hIdx ok meas v).1.errorMessage ≠ "") ∧
    (isValidVolume v = true → 100 ≤ calculateRuntime cal v →
       calculateRuntime cal v ≤ 300000 → ok = true →
       (dispense true cal hIdx ok meas v).1 =
         { success := true, actualRuntime := meas, targetVolume := v,
           estimatedVolume := estimateVolume cal meas, errorMessage := "" } ∧
       (dispense true cal hIdx ok meas v).2 =
         [MotorCmd.start hIdx, MotorCmd.stop hIdx]) := by
  refine ⟨fun hv => calculateRuntime_bounds cal v hr hv, ?_, ?_, ?_⟩
  · intro hbad
    simp only [dispense]
    rw [if_neg (by simp), if_pos (by simp [hbad])]
    exact ⟨rfl, rfl, by show ("Invalid volume" : String) ≠ ""; decide⟩
  · intro hok hrange
    simp only [dispense]
    rw [if_neg (by simp), if_neg (by simp [hok]),
        if_pos (Or.inr (by
          intro hgood
          rw [isValidRuntime] at hgood
          simp only [decide_eq_true_eq] at hgood
          have := hgood
          rw [MIN_RUNTIME_MS, MAX_RUNTIME_MS] at this
          omega))]
    exact ⟨rfl, rfl, by show ("Invalid runtime calculated" : String) ≠ ""; decide⟩
  · intro hok h100 h300 hmot
    subst hmot
    simp only [dispense]
    rw [if_neg (by simp), if_neg (by simp [hok]),
        if_neg (by
          rintro (h0 | hbad)
          · omega
          · exact hbad (by
              rw [isValidRuntime]
              simp only [decide_eq_true_eq]
              rw [MIN_RUNTIME_MS, MAX_RUNTIME_MS]
              omega)),
        if_neg (by simp)]
    exact ⟨rfl, rfl⟩

/-- C2 witness: at the default calibration (1 mL/s) a 5 mL dispense with a
measured 5000 ms runtime succeeds with the stated result and actuator
commands. -/
theorem c2_dispense_behaviour_witness :
    (dispense true defaultCalibration 0 true 5000 5).1 =
      { success := true, actualRuntime := 5000, targetVolume := 5,
        estimatedVolume := estimateVolume defaultCalibration 5000,
        errorMessage := "" } ∧
    (dispense true defaultCalibration 0 true 5000 5).2 =
      [MotorCmd.start 0, MotorCmd.stop 0] := by
  have hmain := c2_dispense_behaviour defaultCalibration 0 true 5000 5
    (by norm_num [defaultCalibration])
  exact hmain.2.2.2
    (by norm_num [isValidVolume, MIN_VOLUME_ML, MAX_VOLUME_ML])
    (by norm_num [calculateRuntime, defaultCalibration])
    (by norm_num [calculateRuntime, defaultCalibration]) rfl

/-- C6, counterexample to the claim as stated: calibration is *not* atomic
with respect to persistence.  With the default calibration, a measured
2 mL and a failed `Preferences::begin` inside `saveCalibration`, the call
returns failure but the in-memory record has already been updated to
0.5 mL/s, calibrated. -/
theorem c6_counterexample_calibrate_persist :
    (calibrate true defaultCalibration 5 false 2).2 = false ∧
    (calibrate true defaultCalibration 5 false 2).1 =
      { mlPerSecond := 1 / 2, isCalibrated := true, lastCalibrationTime := 5 } ∧
    ({ mlPerSecond := 1 / 2, isCalibrated := true, lastCalibrationTime := 5 } :
      CalibrationData) ≠ defaultCalibration := by
  have hcal : calibrate true defaultCalibration 5 false 2 =
      ({ mlPerSecond := 1 / 2, isCalibrated := true, lastCalibrationTime := 5 },
       false) := by
    have hd : calculateRuntime defaultCalibration CALIBRATION_VOLUME_ML = 4000 := by
      norm_num [calculateRuntime, defaultCalibration, CALIBRATION_VOLUME_ML]
      decide
    simp only [calibrate, hd]
    norm_num
  refine ⟨by rw [hcal], by rw [hcal], fun hcontra => ?_⟩
  have := congrArg CalibrationData.mlPerSecond hcontra
  norm_num [defaultCalibration] at this

/-- C6 (amended): `calibrate` computes the calibration duration as the
*truncated* `4 / current_rate * 1000` milliseconds, derives
`new_rate = actual / (duration / 1000)`, accepts it exactly when
`new_rate ∈ (0, 100]` (rejecting also nonpositive measurements and a zero
duration), and on acceptance updates the in-memory record *regardless* of
persistence; the call's boolean result equals the persistence outcome, so a
failed write returns failure while leaving the new values in memory. -/
theorem c6_calibrate_behaviour (cal : CalibrationData) (nowMillis : Nat)
    (persistOpenOk : Bool) (v : ℚ) (hr : 0 < cal.mlPerSecond) :
    ((calculateRuntime cal CALIBRATION_VOLUME_ML : ℚ) ≤ 4 / cal.mlPerSecond * 1000 ∧
      4 / cal.mlPerSecond * 1000 < calculateRuntime cal CALIBRATION_VOLUME_ML + 1) ∧
    (v ≤ 0 → calibrate true cal nowMillis persistOpenOk v = (cal, false)) ∧
    (0 < v → calculateRuntime cal CALIBRATION_VOLUME_ML = 0 →
      calibrate true cal nowMillis persistOpenOk v = (cal, false)) ∧
    (0 < v → calculateRuntime cal CALIBRATION_VOLUME_ML ≠ 0 →
      (v / ((calculateRuntime cal CALIBRATION_VOLUME_ML : ℚ) / 1000) ≤ 0 ∨
         100 < v / ((calculateRuntime cal CALIBRATION_VOLUME_ML : ℚ) / 1000) →
         calibrate true cal nowMillis persistOpenOk v = (cal, false)) ∧
      (0 < v / ((calculateRuntime cal CALIBRATION_VOLUME_ML : ℚ) / 1000) →
         v / ((calculateRuntime cal CALIBRATION_VOLUME_ML : ℚ) / 1000) ≤ 100 →
         calibrate true cal nowMillis persistOpenOk v =
           ({ mlPerSecond := v / ((calculateRuntime cal CALIBRATION_VOLUME_ML : ℚ) / 1000),
              isCalibrated := true, lastCalibrationTime := nowMillis },
            persistOpenOk))) := by
  refine ⟨?_, ?_, ?_, ?_⟩
  · have hb := calculateRuntime_bounds cal CALIBRATION_VOLUME_ML hr
      (by rw [CALIBRATION_VOLUME_ML]; norm_num)
    rwa [show (CALIBRATION_VOLUME_ML : ℚ) = 4 from rfl] at hb
  · intro hv0
    simp only [calibrate]
    rw [if_neg (by simp), if_pos hv0]
  · intro hv hd0
    simp only [calibrate]
    rw [if_neg (by simp), if_neg (not_le.mpr hv), if_pos hd0]
  · intro hv hd0
    constructor
    · intro hbad
      simp only [calibrate]
      rw [if_neg (by simp), if_neg (not_le.mpr hv), if_neg hd0, if_pos hbad]
    · intro hpos hle
      simp only [calibrate]
      rw [if_neg (by simp), if_neg (not_le.mpr hv), if_neg hd0,
          if_neg (by
            rintro (hb | hb)
            · exact absurd hpos (not_lt.mpr hb)
            · exact absurd hle (not_le.mpr hb))]

/-- C6 witness: with the default calibration, a measured 2 mL and a
successful persistence open, the call accepts rate 0.5 mL/s and returns
success. -/
theorem c6_calibrate_behaviour_witness :
    calibrate true defaultCalibration 7 true 2 =
      ({ mlPerSecond :=
           2 / ((calculateRuntime defaultCalibration CALIBRATION_VOLUME_ML : ℚ) / 1000),
         isCalibrated := true, lastCalibrationTime := 7 }, true) := by
  have hd : calculateRuntime defaultCalibration CALIBRATION_VOLUME_ML = 4000 := by
    norm_num [calculateRuntime, defaultCalibration, CALIBRATION_VOLUME_ML]
    decide
  exact (c6_calibrate_behaviour defaultCalibration 7 true 2
      (by norm_num [defaultCalibration])).2.2.2
    (by norm_num) (by rw [hd]; norm_num)
    |>.2 (by rw [hd]; norm_num) (by rw [hd]; norm_num)

/-- C10: the volume recorded in the hourly log is the dose's *estimated*
volume — `ml_per_second * actual_runtime / 1000` — on both the scheduled
path (`ScheduleManager::executeSchedule`) and the ad-hoc path (the detached
dose task of `WebServer::handlePostDose`), and that estimate differs from
the requested target volume whenever the measured runtime differs from the
computed runtime. -/
theorem c10_log_uses_estimated_volume (env : DoseEnv) (st : SystemState)
    (sched : Schedule) (log : LogStore) (h t ts : Nat) (v : ℚ) :
    (sched.head < 4 → (headDispense env sched.head sched.volume).1.success = true →
      (executeSchedule env st sched t).log =
        (logScheduledDose st.log sched.head
          (estimateVolume (env.cal sched.head) (env.measuredRuntime sched.head)) t).1) ∧
    ((headDispense env h v).1.success = true → 946684800 ≤ ts →
      (doseTask env log h v ts).1 =
        (logAdhocDose log h (estimateVolume (env.cal h) (env.measuredRuntime h)) ts).1) ∧
    (0 < (env.cal h).mlPerSecond →
      env.measuredRuntime h ≠ calculateRuntime (env.cal h) v →
      estimateVolume (env.cal h) (env.measuredRuntime h) ≠ v) := by
  refine ⟨?_, ?_, fun hr hne => estimate_ne_target _ _ _ hr hne⟩
  · intro h4 hsucc
    have hres := (dispense_success_result (env.initialized sched.head)
      (env.cal sched.head) sched.head (env.motorStartOk sched.head)
      (env.measuredRuntime sched.head) sched.volume
      (by rw [← headDispense_def]; exact hsucc)).1
    rw [executeSchedule_log_success env st sched t h4 hsucc,
        show (headDispense env sched.head sched.volume).1.estimatedVolume =
          estimateVolume (env.cal sched.head) (env.measuredRuntime sched.head) from by
            rw [headDispense_def, hres]]
  · intro hsucc hts
    have hres := (dispense_success_result (env.initialized h) (env.cal h) h
      (env.motorStartOk h) (env.measuredRuntime h) v
      (by rw [← headDispense_def]; exact hsucc)).1
    simp only [doseTask]
    rw [if_pos ⟨hsucc, hts⟩,
        show (headDispense env h v).1.estimatedVolume =
          estimateVolume (env.cal h) (env.measuredRuntime h) from by
            rw [headDispense_def, hres]]

/-- C10 witness: a 5 mL ad-hoc dose whose measured runtime is 5100 ms logs
the estimated 5.1 mL, which differs from the 5 mL target. -/
theorem c10_log_uses_estimated_volume_witness :
    (doseTask demoSlowEnv emptyLogStore 0 5 1748779200).1 =
      (logAdhocDose emptyLogStore 0
        (estimateVolume defaultCalibration 5100) 1748779200).1 ∧
    estimateVolume defaultCalibration 5100 ≠ 5 := by
  have hsucc : (headDispense demoSlowEnv 0 5).1.success = true := by
    show (dispense true defaultCalibration 0 true 5100 5).1.success = true
    norm_num [dispense, isValidVolume, isValidRuntime, calculateRuntime,
      defaultCalibration, MIN_VOLUME_ML, MAX_VOLUME_ML, MIN_RUNTIME_MS,
      MAX_RUNTIME_MS]
  have hmain := c10_log_uses_estimated_volume demoSlowEnv emptySystemState
    demoSchedule emptyLogStore 0 0 1748779200 5
  exact ⟨hmain.2.1 hsucc (by decide),
    hmain.2.2 (by norm_num [demoSlowEnv, defaultCalibration])
      (by norm_num [demoSlowEnv, calculateRuntime, defaultCalibration]
          decide)⟩

/-- C4: log writes merge additively per (hour, head) key: `saveLog` onto an
existing `(H, h)` entry holding volumes `(a, b)` with a new entry `(c, d)`
yields a stored entry `(a + c, b + d)`, and a same-hour sequence of
`logScheduledDose h vᵢ` calls starting from a store without that key leaves
the sum of the `vᵢ` as the stored scheduled volume (and nothing ad-hoc). -/
theorem c4_log_merge_additive :
    (∀ (st : LogStore) (H h : Nat) (a b c d : ℚ),
        h < 4 → 946684800 ≤ H → H % 3600 = 0 →
        0 ≤ a → 0 ≤ b → 0 ≤ c → 0 ≤ d →
        st.lookup (getLogKey H h) = some ⟨H, h, a, b⟩ →
        (saveLog st ⟨H, h, c, d⟩).1.lookup (getLogKey H h) =
          some ⟨H, h, a + c, b + d⟩) ∧
    (∀ (h H : Nat) (calls : List (ℚ × Nat)) (st : LogStore),
        h < 4 →
        (∀ p ∈ calls, 0 ≤ p.1 ∧ 1577836800 ≤ p.2 ∧ roundToHour p.2 = H) →
        st.lookup (getLogKey H h) = none →
        Option.elim
          ((calls.foldl (fun acc p => (logScheduledDose acc h p.1 p.2).1) st).lookup
            (getLogKey H h)) 0 HourlyDoseLog.scheduledVolume =
          (calls.map Prod.fst).sum) := by
  constructor
  · intro st H h a b c d hh hHlo hHal ha hb hc hd hex
    have hv : (⟨H, h, c, d⟩ : HourlyDoseLog).isValid = true := by
      rw [hourly_isValid_iff]; exact ⟨hh, hc, hd, hHlo, hHal⟩
    have hmain := (saveLog_lookup_merge st ⟨H, h, c, d⟩ ⟨H, h, a, b⟩ hv hex).1
    rw [add_comm a c, add_comm b d]
    exact hmain
  · intro h H calls st hh hcalls hnone
    rcases calls with _ | ⟨p, rest⟩
    · simp [hnone]
    · obtain ⟨hp1, hp2, hp3⟩ := hcalls p (by simp)
      have hnew := logScheduledDose_new st h p.1 p.2 hh hp2 hp1 (by rw [hp3]; exact hnone)
      rw [hp3] at hnew
      simp only [List.foldl_cons]
      obtain ⟨e', ha, hb, hc', hd', he'⟩ := logScheduled_fold_acc h H hh rest
        (fun q hq => hcalls q (by simp [hq])) _ _ hnew rfl rfl
      rw [ha]
      simp only [Option.elim]
      rw [hb]
      simp [List.map_cons, List.sum_cons]

/-- C4 witness: merging `(2, 4)` onto a stored `(3, 1)` for the same hour and
head yields `(3 + 2, 1 + 4)`, and two same-hour scheduled doses of 2 mL and
3 mL into an empty store leave their sum as the scheduled tally. -/
theorem c4_log_merge_additive_witness :
    (saveLog seedStore ⟨1748779200, 0, 2, 4⟩).1.lookup (getLogKey 1748779200 0) =
      some ⟨1748779200, 0, 3 + 2, 1 + 4⟩ ∧
    Option.elim
      (([((2 : ℚ), 1748779300), ((3 : ℚ), 1748780000)].foldl
          (fun acc p => (logScheduledDose acc 0 p.1 p.2).1) emptyLogStore).lookup
        (getLogKey 1748779200 0)) 0 HourlyDoseLog.scheduledVolume =
      ([((2 : ℚ), 1748779300), ((3 : ℚ), 1748780000)].map Prod.fst).sum := by
  constructor
  · exact c4_log_merge_additive.1 seedStore 1748779200 0 3 1 2 4 (by decide) (by decide)
      (by decide) (by norm_num) (by norm_num) (by norm_num) (by norm_num) (by decide)
  · exact c4_log_merge_additive.2 0 1748779200
      [((2 : ℚ), 1748779300), ((3 : ℚ), 1748780000)] emptyLogStore (by decide)
      (by decide) (by decide)

/-- C8: every hourly log entry ever stored is valid: the empty store satisfies
the invariant, every log operation (`saveLog`, `logScheduledDose`,
`logAdhocDose`, `pruneOldLogs`, `clearAllLogs`) preserves it, and a valid
entry's `hourTimestamp` is hour-aligned and at least 946684800 (2000-01-01)
with `head < 4`, so no operation can create a non-hour-aligned entry. -/
theorem c8_log_entry_invariant :
    StoreEntriesValid emptyLogStore ∧
    (∀ st log, StoreEntriesValid st → StoreEntriesValid (saveLog st log).1) ∧
    (∀ st h v ts, StoreEntriesValid st →
        StoreEntriesValid (logScheduledDose st h v ts).1) ∧
    (∀ st h v ts, StoreEntriesValid st →
        StoreEntriesValid (logAdhocDose st h v ts).1) ∧
    (∀ st t, StoreEntriesValid st → StoreEntriesValid (pruneOldLogs st t).1) ∧
    (∀ st, StoreEntriesValid (clearAllLogs st)) ∧
    (∀ st k e, StoreEntriesValid st → st.lookup k = some e →
        e.hourTimestamp % 3600 = 0 ∧ 946684800 ≤ e.hourTimestamp ∧ e.head < 4) := by
  refine ⟨storeValid_empty, saveLog_preserves_valid,
    fun st h v ts => logScheduledDose_preserves_valid st h v ts,
    fun st h v ts => logAdhocDose_preserves_valid st h v ts,
    fun st t => pruneOldLogs_preserves_valid st t,
    clearAllLogs_valid, ?_⟩
  intro st k e hst hlook
  have hv := hst k e hlook
  rw [hourly_isValid_iff] at hv
  exact ⟨hv.2.2.2.2, hv.2.2.2.1, hv.1⟩

/-- C8 witness: the single-entry store `staleStore` satisfies the invariant,
so its entry is hour-aligned, dated past 2000-01-01, and on a head below 4. -/
theorem c8_log_entry_invariant_witness :
    staleEntry.hourTimestamp % 3600 = 0 ∧ 946684800 ≤ staleEntry.hourTimestamp ∧
      staleEntry.head < 4 := by
  have hst : StoreEntriesValid staleStore := by
    intro k e h
    simp only [staleStore, LogStore.lookup, findEntry] at h
    by_cases hk : getLogKey 1796194800 0 = k
    · rw [if_pos hk] at h
      cases h
      decide
    · rw [if_neg hk] at h
      cases h
  exact c8_log_entry_invariant.2.2.2.2.2.2 staleStore (getLogKey 1796194800 0)
    staleEntry hst (by decide)

/-- C5, counterexample to the claim as stated: pruning at wall time
1800000000 leaves `staleEntry` in the store even though its hour, 1796194800,
lies below the retention cutoff `t - 336·3600 = 1798790400`.  The code only
walks the 30-day window of hours directly below the cutoff hour, and this
entry sits one hour below that window. -/
theorem c5_counterexample_prune_window :
    (1796194800 : Nat) < 1800000000 - LOG_RETENTION_HOURS * 3600 ∧
    staleStore.lookup (getLogKey 1796194800 0) = some staleEntry ∧
    (pruneOldLogs staleStore 1800000000).1.lookup (getLogKey 1796194800 0) =
      some staleEntry := by
  refine ⟨by decide, by decide, ?_⟩
  rw [pruneOldLogs_lookup_eq_range]
  rw [show sub32 1800000000 (LOG_RETENTION_HOURS * 3600) = 1798790400 from by decide]
  rw [show sub32 (1798790400 / 3600 * 3600) (30 * 24 * 3600) = 1796198400 from by decide]
  rw [show (1798790400 / 3600 * 3600 - 1796198400 + 3599) / 3600 = 720 from by decide]
  have hmiss : ∀ i, i < 720 → ∀ hd, hd < 4 →
      getLogKey 1796194800 0 ≠ getLogKey (1796198400 + 3600 * i) hd := by
    intro i hi hd hhd heq
    simp only [getLogKey, Prod.mk.injEq] at heq
    rw [show sub32 1796194800 BASE_TIME = 60505200 from by decide,
        show sub32 (1796198400 + 3600 * i) BASE_TIME = 60508800 + 3600 * i from by
          simp only [sub32, BASE_TIME, UINT32_MOD]; omega] at heq
    omega
  rw [pruneRange_lookup_miss staleStore 1796198400 720 _ hmiss]
  decide

/-- C5 (amended): for a wall time `t` comfortably past the epoch base
(`BASE_TIME + 30·24·3600 + 336·3600 + 3600 ≤ t < 2^32`), pruning at `t`
removes exactly the 30-day window of hours directly below the cutoff hour
`(t - 336·3600) / 3600 · 3600`: every (hour, head) key inside that window is
gone afterwards, while hour-aligned keys at or after `BASE_TIME` but below
the window are left untouched — entries older than 30 days past the cutoff
survive pruning. -/
theorem c5_prune_window (st : LogStore) (t : Nat)
    (hlo : BASE_TIME + 30 * 24 * 3600 + LOG_RETENTION_HOURS * 3600 + 3600 ≤ t)
    (hhi : t < UINT32_MOD) :
    ∀ H hd, H % 3600 = 0 → hd < 4 →
      ((t - LOG_RETENTION_HOURS * 3600) / 3600 * 3600 - 30 * 24 * 3600 ≤ H →
        H < (t - LOG_RETENTION_HOURS * 3600) / 3600 * 3600 →
        (pruneOldLogs st t).1.lookup (getLogKey H hd) = none) ∧
      (BASE_TIME ≤ H →
        H < (t - LOG_RETENTION_HOURS * 3600) / 3600 * 3600 - 30 * 24 * 3600 →
        (pruneOldLogs st t).1.lookup (getLogKey H hd) = st.lookup (getLogKey H hd)) := by
  intro H hd hH hhd
  simp only [BASE_TIME, LOG_RETENTION_HOURS, UINT32_MOD] at hlo hhi ⊢
  have hct : sub32 t (336 * 3600) = t - 336 * 3600 := by
    simp only [sub32, UINT32_MOD]; omega
  have hstart : sub32 ((t - 336 * 3600) / 3600 * 3600) (30 * 24 * 3600) =
      (t - 336 * 3600) / 3600 * 3600 - 30 * 24 * 3600 := by
    simp only [sub32, UINT32_MOD]; omega
  have hiters :
      ((t - 336 * 3600) / 3600 * 3600 -
        ((t - 336 * 3600) / 3600 * 3600 - 30 * 24 * 3600) + 3599) / 3600 = 720 := by
    omega
  constructor
  · intro h1 h2
    rw [pruneOldLogs_lookup_eq_range]
    simp only [LOG_RETENTION_HOURS]
    rw [hct, hstart, hiters]
    have hkey : (t - 336 * 3600) / 3600 * 3600 - 30 * 24 * 3600 +
        3600 * ((H - ((t - 336 * 3600) / 3600 * 3600 - 30 * 24 * 3600)) / 3600) = H := by
      omega
    rw [← hkey]
    exact pruneRange_lookup_none st _ 720 _ hd (by omega) hhd
  · intro h1 h2
    rw [pruneOldLogs_lookup_eq_range]
    simp only [LOG_RETENTION_HOURS]
    rw [hct, hstart, hiters]
    refine pruneRange_lookup_miss st _ 720 _ ?_
    intro i hi hd' hhd' heq
    simp only [getLogKey, Prod.mk.injEq] at heq
    rw [show sub32 H BASE_TIME = H - BASE_TIME from by
          simp only [sub32, BASE_TIME, UINT32_MOD]; omega,
        show sub32 ((t - 336 * 3600) / 3600 * 3600 - 30 * 24 * 3600 + 3600 * i)
              BASE_TIME =
            (t - 336 * 3600) / 3600 * 3600 - 30 * 24 * 3600 + 3600 * i - BASE_TIME from by
          simp only [sub32, BASE_TIME, UINT32_MOD]; omega] at heq
    simp only [BASE_TIME] at heq
    omega

/-- C5 witness: at wall time 1800000000 the cutoff hour is 1798790400, so
pruning `staleStore` empties the first window hour 1796198400 and leaves the
lookup below the window (hour 1796194800) unchanged. -/
theorem c5_prune_window_witness :
    (pruneOldLogs staleStore 1800000000).1.lookup (getLogKey 1796198400 0) = none ∧
    (pruneOldLogs staleStore 1800000000).1.lookup (getLogKey 1796194800 0) =
      staleStore.lookup (getLogKey 1796194800 0) := by
  have h := c5_prune_window staleStore 1800000000 (by decide) (by decide)
  constructor
  · exact (h 1796198400 0 (by decide) (by decide)).1 (by decide) (by decide)
  · exact (h 1796194800 0 (by decide) (by decide)).2 (by decide) (by decide)

end SquareDose
